import Mathlib

/-!
Verification of the core splitting logic of `split_geojson_app.py`.

The core consists of three functions:

* `count_vertices(geometry)` — the vertex counter;
* `split_geometry(geometry)` — the bisector, which chooses a cut line from the
  bounding box and invokes shapely's `split` primitive, absorbing any failure;
* `recursive_split(geometry, max_vertices=256)` — the worklist-driven splitter.

Embedding notes:

* Coordinates are embedded as rationals (`ℚ × ℚ`); geometries are Polygons,
  MultiPolygons, and representative "other" kinds (Point, LineString) so that
  the "any other geometry kind" branch of `count_vertices` is visible.
* shapely's `split` primitive (`shapely.ops.split`) is an external library
  call, not code of this repository; it is embedded as an abstract parameter
  `prim : SplitPrimitive` which may fail (`Except`) and whose success value
  may or may not carry a `.geoms` attribute (`SplitOutput.collection` vs
  `SplitOutput.single`), mirroring the
  `list(result.geoms) if hasattr(result, 'geoms') else [result]` line.
* The Python `while queue:` loop is embedded with an explicit fuel parameter
  returning `Option` (`none` = fuel exhausted); the worklist stack is kept
  top-first, i.e. reversed relative to the Python list, so `queue.pop()` is
  head access and `queue.extend(parts)` is `parts.reverse ++ queue`.
* `geometry.bounds` on an empty geometry is given the junk value `(0,0,0,0)`;
  the recursive splitter never reaches the bisector with an empty geometry
  (its vertex count 0 satisfies any bound).
-/

namespace SplitGeojsonApp

/-- A 2D coordinate, as shapely's (x, y) pair. -/
abbrev Coord : Type := ℚ × ℚ

/-- A linear ring: the ordered coordinate sequence of one polygon ring
(closed by convention, the first and last coordinates being equal; the
duplicated closing point is part of the sequence, as in shapely's
`ring.coords`). -/
structure LinearRing where
  coords : List Coord
deriving DecidableEq, Repr

/-- The shape data of a shapely Polygon: one exterior ring and a list of
interior (hole) rings. -/
structure PolygonShape where
  exterior : LinearRing
  interiors : List LinearRing
deriving DecidableEq, Repr

/-- A shapely geometry, restricted to the kinds the core distinguishes:
Polygon, MultiPolygon, and representative other kinds (Point, LineString)
that fall into the `else: return 0` branch of `count_vertices`. -/
inductive Geometry where
  | polygon (p : PolygonShape)
  | multiPolygon (polys : List PolygonShape)
  | point (c : Coord)
  | lineString (coords : List Coord)
deriving DecidableEq, Repr

/-- A polygon is empty (shapely `is_empty`) when it carries no coordinates:
`Polygon()` has an empty exterior coordinate sequence and no interiors. -/
def isEmptyPoly (p : PolygonShape) : Bool :=
  p.exterior.coords.isEmpty && p.interiors.isEmpty

/-- shapely's `geometry.is_empty`: true iff the geometry carries no
coordinates. -/
def Geometry.is_empty : Geometry → Bool
  | .polygon p => isEmptyPoly p
  | .multiPolygon ps => ps.all isEmptyPoly
  | .point _ => false
  | .lineString cs => cs.isEmpty

/-- `sum(len(ring.coords) for ring in [geometry.exterior] + list(geometry.interiors))`
(the Polygon branch of `count_vertices`, lines 22–23). -/
def polygonVertexCount (p : PolygonShape) : Nat :=
  ((p.exterior :: p.interiors).map (fun r => r.coords.length)).sum

/-- `count_vertices` (lines 19–27).  The Python function recurses as
`sum(count_vertices(poly) for poly in geometry.geoms)` on a MultiPolygon;
since every component of a shapely MultiPolygon is a Polygon, that recursive
call is inlined here as its Polygon-case unfolding
`if isEmptyPoly p then 0 else polygonVertexCount p`
(see `count_vertices_polygon_unfold`). -/
def count_vertices (g : Geometry) : Nat :=
  if g.is_empty then 0
  else
    match g with
    | .polygon p => polygonVertexCount p
    | .multiPolygon ps =>
        (ps.map (fun p => if isEmptyPoly p then 0 else polygonVertexCount p)).sum
    | .point _ => 0
    | .lineString _ => 0

/-- The inlined MultiPolygon summand agrees with `count_vertices` applied to
the component Polygon, so the embedding of the recursive call is faithful. -/
theorem count_vertices_polygon_unfold (p : PolygonShape) :
    count_vertices (.polygon p) = if isEmptyPoly p then 0 else polygonVertexCount p := by
  simp only [count_vertices, Geometry.is_empty]

/-- All coordinates of a geometry, in order; used only to compute
`geometry.bounds`. -/
def Geometry.coordList : Geometry → List Coord
  | .polygon p => ((p.exterior :: p.interiors).map (fun r => r.coords)).flatten
  | .multiPolygon ps =>
      (ps.map (fun p => ((p.exterior :: p.interiors).map (fun r => r.coords)).flatten)).flatten
  | .point c => [c]
  | .lineString cs => cs

/-- `geometry.bounds`: the `(minx, miny, maxx, maxy)` bounding box.  For an
empty geometry (no coordinates) the embedding returns the junk value
`(0, 0, 0, 0)`; the worklist loop never calls the bisector on an empty
geometry. -/
def bounds (g : Geometry) : ℚ × ℚ × ℚ × ℚ :=
  match g.coordList with
  | [] => (0, 0, 0, 0)
  | c :: cs =>
      (cs.foldl (fun m q => min m q.1) c.1,
       cs.foldl (fun m q => min m q.2) c.2,
       cs.foldl (fun m q => max m q.1) c.1,
       cs.foldl (fun m q => max m q.2) c.2)

/-- The two-point `LineString` used as the cut line. -/
abbrev SplitLine : Type := Coord × Coord

/-- The value returned by shapely's `split` primitive on success: either a
collection exposing `.geoms` (shapely returns a `GeometryCollection`) or a
bare geometry without `.geoms`, which the source also handles. -/
inductive SplitOutput where
  | collection (geoms : List Geometry)
  | single (g : Geometry)
deriving DecidableEq, Repr

/-- The external split primitive `shapely.ops.split(geometry, split_line)`:
third-party library code, embedded as an abstract function that may raise
(`Except.error`). -/
abbrev SplitPrimitive : Type := Geometry → SplitLine → Except Unit SplitOutput

/-- Lines 30–37 of `split_geometry`: compute the bounding box, and cut
vertically at `x = (minx+maxx)/2` when `dx ≥ dy`, otherwise horizontally at
`y = (miny+maxy)/2`. -/
def choose_split_line (geometry : Geometry) : SplitLine :=
  let (minx, miny, maxx, maxy) := bounds geometry
  let dx := maxx - minx
  let dy := maxy - miny
  if dx ≥ dy then
    (((minx + maxx) / 2, miny), ((minx + maxx) / 2, maxy))
  else
    ((minx, (miny + maxy) / 2), (maxx, (miny + maxy) / 2))

/-- `split_geometry` (lines 29–43), parameterised by the external split
primitive: on failure return `[geometry]`, on success return the parts of a
`.geoms`-bearing result, or the bare result as a one-element list. -/
def split_geometry (prim : SplitPrimitive) (geometry : Geometry) : List Geometry :=
  match prim geometry (choose_split_line geometry) with
  | .error _ => [geometry]
  | .ok (.collection gs) => gs
  | .ok (.single r) => [r]

/-- The `while queue:` loop of `recursive_split` (lines 49–58), with explicit
fuel; `none` means the fuel ran out before the queue emptied.  The queue is
kept top-first (reversed Python list): `queue.pop()` removes the head and
`queue.extend(parts)` prepends `parts.reverse`. -/
def recursive_split_go (prim : SplitPrimitive) (max_vertices : Nat) :
    Nat → List Geometry → List Geometry → Option (List Geometry)
  | _, [], results => some results
  | 0, _ :: _, _ => none
  | fuel + 1, geom :: queue, results =>
      if count_vertices geom ≤ max_vertices then
        recursive_split_go prim max_vertices fuel queue (results ++ [geom])
      else
        let parts := split_geometry prim geom
        if parts.length = 1 then
          recursive_split_go prim max_vertices fuel queue (results ++ [geom])
        else
          recursive_split_go prim max_vertices fuel (parts.reverse ++ queue) results

/-- `recursive_split(geometry, max_vertices=256)` (lines 45–59), with the
source's default bound and explicit fuel for the loop. -/
def recursive_split (prim : SplitPrimitive) (fuel : Nat) (geometry : Geometry)
    (max_vertices : Nat := 256) : Option (List Geometry) :=
  recursive_split_go prim max_vertices fuel [geometry] []

/-- One iteration of the loop body on a popped geometry `geom`: the next
(queue, results) state.  Factored out of `recursive_split_go` verbatim; the
equation `recursive_split_go_succ` below ties it to the loop. -/
def worklist_step (prim : SplitPrimitive) (max_vertices : Nat) (geom : Geometry)
    (queue results : List Geometry) : List Geometry × List Geometry :=
  if count_vertices geom ≤ max_vertices then
    (queue, results ++ [geom])
  else
    let parts := split_geometry prim geom
    if parts.length = 1 then
      (queue, results ++ [geom])
    else
      (parts.reverse ++ queue, results)

theorem recursive_split_go_succ (prim : SplitPrimitive) (B fuel : Nat) (geom : Geometry)
    (queue results : List Geometry) :
    recursive_split_go prim B (fuel + 1) (geom :: queue) results
      = recursive_split_go prim B fuel (worklist_step prim B geom queue results).1
          (worklist_step prim B geom queue results).2 := by
  by_cases hc : count_vertices geom ≤ B
  · simp [recursive_split_go, worklist_step, hc]
  · by_cases hl : (split_geometry prim geom).length = 1 <;>
      simp [recursive_split_go, worklist_step, hc, hl]

/-- Concrete geometries used as evaluation witnesses: the square of the
spec's concrete scenario, with corners (0,0),(0,10),(10,10),(10,0) and the
duplicated closing point (5 coordinates), … -/
def squarePoly : PolygonShape :=
  ⟨⟨[(0, 0), (0, 10), (10, 10), (10, 0), (0, 0)]⟩, []⟩

def squareGeom : Geometry := .polygon squarePoly

/-- … the triangle of the spec's concrete scenario (4 coordinates:
3 vertices plus the closing point), … -/
def trianglePoly : PolygonShape :=
  ⟨⟨[(0, 0), (4, 0), (0, 4), (0, 0)]⟩, []⟩

def triangleGeom : Geometry := .polygon trianglePoly

/-- … a primitive that always raises, so the bisector always falls back, … -/
def failingPrim : SplitPrimitive := fun _ _ => .error ()

/-- … and a primitive that always succeeds with a two-part collection. -/
def twoPartPrim : SplitPrimitive := fun _ _ =>
  .ok (.collection [.point (0, 0), .point (1, 1)])

/-- C8: for a MultiPolygon composed of polygons P1..Pn, `count_vertices`
equals the sum of `count_vertices` over the constituent Polygons; and for a
Polygon, `count_vertices` equals the sum, over the exterior ring and each
interior ring, of that ring's coordinate-sequence length (closing point
included). -/
theorem count_vertices_additivity :
    (∀ ps : List PolygonShape,
      count_vertices (.multiPolygon ps)
        = (ps.map (fun p => count_vertices (.polygon p))).sum)
    ∧ (∀ p : PolygonShape,
      count_vertices (.polygon p)
        = p.exterior.coords.length + (p.interiors.map (fun r => r.coords.length)).sum) := by
  have hpoly : ∀ p : PolygonShape,
      count_vertices (.polygon p)
        = p.exterior.coords.length + (p.interiors.map (fun r => r.coords.length)).sum := by
    intro p
    rw [count_vertices_polygon_unfold]
    by_cases h : isEmptyPoly p
    · have h' := h
      simp only [isEmptyPoly, Bool.and_eq_true, List.isEmpty_iff] at h'
      rw [if_pos h, h'.1, h'.2]
      simp
    · rw [if_neg h, polygonVertexCount]
      simp
  refine ⟨?_, hpoly⟩
  intro ps
  simp only [count_vertices]
  by_cases h : (Geometry.multiPolygon ps).is_empty
  · rw [if_pos h]
    have hall : ∀ p ∈ ps, isEmptyPoly p = true := List.all_eq_true.mp h
    symm
    apply List.sum_eq_zero
    intro x hx
    obtain ⟨p, hp, rfl⟩ := List.mem_map.mp hx
    have hpe : (Geometry.polygon p).is_empty = true := hall p hp
    rw [if_pos hpe]
  · rw [if_neg h]
    apply congrArg List.sum
    apply List.map_congr_left
    intro p _
    rfl

/-- C9: `count_vertices` is 0 on every empty geometry of any kind, is 0 on
every geometry whose kind is neither Polygon nor MultiPolygon, and is always
a non-negative integer. -/
theorem count_vertices_zero_cases :
    (∀ g : Geometry, g.is_empty = true → count_vertices g = 0)
    ∧ (∀ c : Coord, count_vertices (.point c) = 0)
    ∧ (∀ cs : List Coord, count_vertices (.lineString cs) = 0)
    ∧ (∀ g : Geometry, 0 ≤ count_vertices g) := by
  refine ⟨fun g h => ?_, fun c => ?_, fun cs => ?_, fun g => Nat.zero_le _⟩
  · simp only [count_vertices]
    rw [if_pos h]
  · simp only [count_vertices]
    split <;> rfl
  · simp only [count_vertices]
    split <;> rfl

/-- Witness for C9 at concrete inputs: the empty Polygon, the empty
LineString and a non-empty Point all have vertex count 0. -/
theorem count_vertices_zero_cases_witness :
    count_vertices (.polygon ⟨⟨[]⟩, []⟩) = 0
    ∧ count_vertices (.lineString []) = 0
    ∧ count_vertices (.point (3, 4)) = 0 :=
  ⟨count_vertices_zero_cases.1 (.polygon ⟨⟨[]⟩, []⟩) (by decide),
   count_vertices_zero_cases.2.2.1 [],
   count_vertices_zero_cases.2.1 (3, 4)⟩

/-- C10: `recursive_split` called without an explicit `max_vertices`
argument behaves identically to calling it with the bound 256: that default
belongs to the core function itself. -/
theorem recursive_split_default_bound (prim : SplitPrimitive) (fuel : Nat) (g : Geometry) :
    recursive_split prim fuel g = recursive_split prim fuel g 256 := rfl

/-- C5: whenever the underlying split primitive raises, `split_geometry`
returns the one-element list holding the original, unmodified geometry; in
this total embedding no exception can escape `split_geometry` or
`recursive_split`. -/
theorem split_geometry_absorbs_errors (prim : SplitPrimitive) (g : Geometry) (e : Unit)
    (herr : prim g (choose_split_line g) = .error e) :
    split_geometry prim g = [g] := by
  rw [split_geometry, herr]

/-- Witness for C5: a primitive that always raises makes the bisector return
the input square unchanged. -/
theorem split_geometry_absorbs_errors_witness :
    split_geometry failingPrim squareGeom = [squareGeom] :=
  split_geometry_absorbs_errors failingPrim squareGeom () rfl

/-- C6: with bounding box `(minx, miny, maxx, maxy)`, the bisector's cut line
is vertical at `x = (minx+maxx)/2` from `y = miny` to `y = maxy` whenever
`dx ≥ dy` (so a tie `dx = dy` picks the vertical cut), and otherwise
horizontal at `y = (miny+maxy)/2` from `x = minx` to `x = maxx`. -/
theorem split_line_orientation (g : Geometry) (minx miny maxx maxy : ℚ)
    (hb : bounds g = (minx, miny, maxx, maxy)) :
    (maxx - minx ≥ maxy - miny →
      choose_split_line g = (((minx + maxx) / 2, miny), ((minx + maxx) / 2, maxy)))
    ∧ (maxx - minx < maxy - miny →
      choose_split_line g = ((minx, (miny + maxy) / 2), (maxx, (miny + maxy) / 2)))
    ∧ (maxx - minx = maxy - miny →
      choose_split_line g = (((minx + maxx) / 2, miny), ((minx + maxx) / 2, maxy))) := by
  have hv : ∀ hge : maxx - minx ≥ maxy - miny,
      choose_split_line g = (((minx + maxx) / 2, miny), ((minx + maxx) / 2, maxy)) := by
    intro hge
    simp only [choose_split_line, hb]
    rw [if_pos hge]
  refine ⟨hv, ?_, fun heq => hv (le_of_eq heq.symm)⟩
  intro hlt
  simp only [choose_split_line, hb]
  rw [if_neg (not_le.mpr hlt)]

/-- Witness for C6: the square of the spec's concrete scenario has bounds
(0, 0, 10, 10), a tie `dx = dy = 10`, and gets the vertical cut at x = 5. -/
theorem split_line_orientation_witness :
    choose_split_line squareGeom = (((0 + 10) / 2, 0), ((0 + 10) / 2, 10)) :=
  (split_line_orientation squareGeom 0 0 10 10 (by decide)).2.2 (by norm_num)

/-- C7: `split_geometry` returns the parts of a `.geoms`-bearing primitive
result in order, wraps a bare single result in a one-element list, and —
provided the primitive never returns an empty collection — always returns a
non-empty list. -/
theorem split_geometry_nonempty (prim : SplitPrimitive) (g : Geometry)
    (hmulti : ∀ gs, prim g (choose_split_line g) = .ok (.collection gs) → gs ≠ []) :
    (∀ gs, prim g (choose_split_line g) = .ok (.collection gs) → split_geometry prim g = gs)
    ∧ (∀ r, prim g (choose_split_line g) = .ok (.single r) → split_geometry prim g = [r])
    ∧ split_geometry prim g ≠ [] := by
  refine ⟨fun gs hgs => ?_, fun r hr => ?_, ?_⟩
  · rw [split_geometry, hgs]
  · rw [split_geometry, hr]
  · cases hp : prim g (choose_split_line g) with
    | error e => simp [split_geometry, hp]
    | ok out =>
      cases out with
      | collection gs => simpa [split_geometry, hp] using hmulti gs hp
      | single r => simp [split_geometry, hp]

/-- Witness for C7: a primitive producing a two-point collection makes the
bisector return exactly those two parts, a non-empty list. -/
theorem split_geometry_nonempty_witness :
    split_geometry twoPartPrim squareGeom = [.point (0, 0), .point (1, 1)]
    ∧ split_geometry twoPartPrim squareGeom ≠ [] :=
  have h := split_geometry_nonempty twoPartPrim squareGeom
    (fun gs hgs => by
      simp only [twoPartPrim, Except.ok.injEq, SplitOutput.collection.injEq] at hgs
      subst hgs
      simp)
  ⟨h.1 _ rfl, h.2.2⟩

/-- C4: on input already within the bound (`count_vertices g ≤ max_vertices`),
`recursive_split` returns exactly the one-element list holding the unmodified
input. -/
theorem recursive_split_small_input (prim : SplitPrimitive) (fuel : Nat) (g : Geometry)
    (max_vertices : Nat) (hB : 0 < max_vertices) (hf : 0 < fuel)
    (hc : count_vertices g ≤ max_vertices) :
    recursive_split prim fuel g max_vertices = some [g] := by
  cases fuel with
  | zero => exact absurd hf (by simp)
  | succ f => simp [recursive_split, recursive_split_go, hc]

/-- Witness for C4: the spec's triangle scenario — 4 coordinates, bound 10 —
comes back as the single-element list holding the triangle. -/
theorem recursive_split_small_input_witness :
    recursive_split failingPrim 1 triangleGeom 10 = some [triangleGeom] :=
  recursive_split_small_input failingPrim 1 triangleGeom 10 (by decide) (by decide)
    (by decide)

/-- Loop invariant behind C1: if the worklist loop finishes, every element of
its output satisfies the bound or is the unsplittable fallback, provided the
accumulated results already do. -/
theorem recursive_split_go_bound (prim : SplitPrimitive) (B : Nat) :
    ∀ fuel queue results res,
      recursive_split_go prim B fuel queue results = some res →
      (∀ F ∈ results, count_vertices F ≤ B ∨ (split_geometry prim F).length = 1) →
      ∀ F ∈ res, count_vertices F ≤ B ∨ (split_geometry prim F).length = 1 := by
  intro fuel
  induction fuel with
  | zero =>
    intro queue results res h hres
    cases queue with
    | nil =>
      simp only [recursive_split_go, Option.some.injEq] at h
      exact h ▸ hres
    | cons g q => simp [recursive_split_go] at h
  | succ f ih =>
    intro queue results res h hres
    cases queue with
    | nil =>
      simp only [recursive_split_go, Option.some.injEq] at h
      exact h ▸ hres
    | cons geom q =>
      simp only [recursive_split_go] at h
      by_cases hc : count_vertices geom ≤ B
      · rw [if_pos hc] at h
        refine ih q (results ++ [geom]) res h ?_
        intro F hF
        rcases List.mem_append.mp hF with h1 | h1
        · exact hres F h1
        · rw [List.mem_singleton.mp h1]
          exact Or.inl hc
      · rw [if_neg hc] at h
        by_cases hl : (split_geometry prim geom).length = 1
        · rw [if_pos hl] at h
          refine ih q (results ++ [geom]) res h ?_
          intro F hF
          rcases List.mem_append.mp hF with h1 | h1
          · exact hres F h1
          · rw [List.mem_singleton.mp h1]
            exact Or.inr hl
        · rw [if_neg hl] at h
          exact ih ((split_geometry prim geom).reverse ++ q) results res h hres

/-- C1: every fragment of a completed `recursive_split(G, B)` run either has
vertex count within the bound `B` or is an unsplittable fallback, i.e. one on
which `split_geometry` returns a single-element list; no other fragment
appears. -/
theorem recursive_split_bound (prim : SplitPrimitive) (G : Geometry) (B fuel : Nat)
    (hB : 0 < B) (res : List Geometry)
    (h : recursive_split prim fuel G B = some res) :
    ∀ F ∈ res, count_vertices F ≤ B ∨ (split_geometry prim F).length = 1 :=
  recursive_split_go_bound prim B fuel [G] [] res h (by simp)

/-- Witness for C1: with an always-failing primitive and bound 3, the square
(5 coordinates > 3) is emitted as the unsplittable fallback, and the theorem
certifies it. -/
theorem recursive_split_bound_witness :
    count_vertices squareGeom ≤ 3 ∨ (split_geometry failingPrim squareGeom).length = 1 :=
  recursive_split_bound failingPrim squareGeom 3 2 (by decide) [squareGeom] (by decide)
    squareGeom (by simp)

/-- C2: one loop iteration on a popped geometry either appends it to the
result sequence (exactly when its vertex count is within the bound or the
bisector returned a single part, the worklist untouched) or replaces it on
the worklist with the ≥ 2 parts of its bisection (the results untouched) —
the two outcomes are exclusive and exhaustive, so no popped geometry is
dropped; the first conjunct ties the step to the actual loop. -/
theorem worklist_step_dichotomy (prim : SplitPrimitive) (B : Nat) (geom : Geometry)
    (queue results : List Geometry) (fuel : Nat)
    (hne : split_geometry prim geom ≠ []) :
    recursive_split_go prim B (fuel + 1) (geom :: queue) results
        = recursive_split_go prim B fuel (worklist_step prim B geom queue results).1
            (worklist_step prim B geom queue results).2
    ∧ ((worklist_step prim B geom queue results = (queue, results ++ [geom])
          ∧ (count_vertices geom ≤ B ∨ (split_geometry prim geom).length = 1))
       ∨ (worklist_step prim B geom queue results
            = ((split_geometry prim geom).reverse ++ queue, results)
          ∧ B < count_vertices geom ∧ 2 ≤ (split_geometry prim geom).length)) := by
  refine ⟨recursive_split_go_succ prim B fuel geom queue results, ?_⟩
  by_cases hc : count_vertices geom ≤ B
  · exact Or.inl ⟨by simp [worklist_step, hc], Or.inl hc⟩
  · by_cases hl : (split_geometry prim geom).length = 1
    · exact Or.inl ⟨by simp [worklist_step, hc, hl], Or.inr hl⟩
    · have h0 : (split_geometry prim geom).length ≠ 0 := by
        simpa [List.length_eq_zero] using hne
      exact Or.inr ⟨by simp [worklist_step, hc, hl], not_le.mp hc, by omega⟩

/-- Witness for C2: the step on the square with bound 3 under the
always-failing primitive lands in the "appended to results" branch. -/
theorem worklist_step_dichotomy_witness :
    recursive_split_go failingPrim 3 (0 + 1) [squareGeom] []
        = recursive_split_go failingPrim 3 0 (worklist_step failingPrim 3 squareGeom [] []).1
            (worklist_step failingPrim 3 squareGeom [] []).2
    ∧ ((worklist_step failingPrim 3 squareGeom [] [] = ([], [] ++ [squareGeom])
          ∧ (count_vertices squareGeom ≤ 3
              ∨ (split_geometry failingPrim squareGeom).length = 1))
       ∨ (worklist_step failingPrim 3 squareGeom [] []
            = ((split_geometry failingPrim squareGeom).reverse ++ [], [])
          ∧ 3 < count_vertices squareGeom
          ∧ 2 ≤ (split_geometry failingPrim squareGeom).length)) :=
  worklist_step_dichotomy failingPrim 3 squareGeom [] [] 0 (by decide)

/-- One worklist move, seen on the multisets of measures: popping `g` and
pushing `parts` (all of strictly smaller measure) is a valid hydra move. -/
theorem cutExpand_worklist_move (μ : Geometry → Nat) (g : Geometry)
    (rest parts : List Geometry) (hparts : ∀ p ∈ parts, μ p < μ g) :
    Relation.CutExpand (· < · : Nat → Nat → Prop)
      (Multiset.map μ ↑(parts ++ rest)) (Multiset.map μ ↑(g :: rest)) := by
  refine ⟨Multiset.map μ ↑parts, μ g, ?_, ?_⟩
  · intro a ha
    obtain ⟨p, hp, rfl⟩ := Multiset.mem_map.mp ha
    exact hparts p (by simpa using hp)
  · have h1 : (Multiset.map μ ↑(parts ++ rest) : Multiset Nat)
        = Multiset.map μ ↑parts + Multiset.map μ ↑rest := by
      rw [← Multiset.coe_add, Multiset.map_add]
    have h2 : (Multiset.map μ ↑(g :: rest) : Multiset Nat)
        = {μ g} + Multiset.map μ ↑rest := by
      rw [← Multiset.cons_coe, Multiset.map_cons, ← Multiset.singleton_add]
    rw [h1, h2]
    abel

/-- Helper for C3: under the spec's progress assumption on the external
split primitive, the worklist loop finishes from any state with enough fuel. -/
theorem recursive_split_go_terminates (prim : SplitPrimitive) (B : Nat)
    (μ : Geometry → Nat)
    (hprog : ∀ g, B < count_vertices g → 2 ≤ (split_geometry prim g).length →
        ∀ p ∈ split_geometry prim g, μ p < μ g) :
    ∀ queue results : List Geometry,
      ∃ fuel res, recursive_split_go prim B fuel queue results = some res := by
  have wf : WellFounded (Relation.CutExpand (· < · : Nat → Nat → Prop)) :=
    WellFounded.cutExpand (wellFounded_lt)
  suffices main : ∀ m : Multiset Nat, ∀ queue results : List Geometry,
      Multiset.map μ ↑queue = m →
      ∃ fuel res, recursive_split_go prim B fuel queue results = some res by
    intro queue results
    exact main _ queue results rfl
  intro m
  refine wf.induction
    (C := fun m => ∀ queue results : List Geometry,
      Multiset.map μ ↑queue = m →
      ∃ fuel res, recursive_split_go prim B fuel queue results = some res) m ?_
  intro x ih queue results hm
  subst hm
  cases queue with
  | nil => exact ⟨0, results, rfl⟩
  | cons geom rest =>
    by_cases hc : count_vertices geom ≤ B
    · obtain ⟨fuel, res, hres⟩ :=
        ih _ (by simpa using cutExpand_worklist_move μ geom rest [] (by simp))
          rest (results ++ [geom]) rfl
      refine ⟨fuel + 1, res, ?_⟩
      simp only [recursive_split_go]
      rw [if_pos hc]
      exact hres
    · by_cases hl : (split_geometry prim geom).length = 1
      · obtain ⟨fuel, res, hres⟩ :=
          ih _ (by simpa using cutExpand_worklist_move μ geom rest [] (by simp))
            rest (results ++ [geom]) rfl
        refine ⟨fuel + 1, res, ?_⟩
        simp only [recursive_split_go]
        rw [if_neg hc, if_pos hl]
        exact hres
      · have hparts : ∀ p ∈ (split_geometry prim geom).reverse, μ p < μ geom := by
          intro p hp
          rw [List.mem_reverse] at hp
          by_cases h2 : 2 ≤ (split_geometry prim geom).length
          · exact hprog geom (not_le.mp hc) h2 p hp
          · have : split_geometry prim geom = [] := by
              rw [← List.length_eq_zero]
              omega
            simp [this] at hp
        obtain ⟨fuel, res, hres⟩ :=
          ih _ (cutExpand_worklist_move μ geom rest _ hparts)
            ((split_geometry prim geom).reverse ++ rest) results rfl
        refine ⟨fuel + 1, res, ?_⟩
        simp only [recursive_split_go]
        rw [if_neg hc, if_neg hl]
        exact hres

/-- C3: `recursive_split(G, B)` terminates in finitely many loop iterations
(some finite fuel suffices) for every geometry and positive bound, under the
spec's progress assumption on the external split primitive: a successful
multi-part bisection of an over-the-bound geometry only produces parts that
are strictly smaller in some measure. -/
theorem recursive_split_terminates (prim : SplitPrimitive) (B : Nat) (hB : 0 < B)
    (G : Geometry) (μ : Geometry → Nat)
    (hprog : ∀ g, B < count_vertices g → 2 ≤ (split_geometry prim g).length →
        ∀ p ∈ split_geometry prim g, μ p < μ g) :
    ∃ fuel res, recursive_split prim fuel G B = some res :=
  recursive_split_go_terminates prim B μ hprog [G] []

/-- Witness for C3: under the always-failing primitive (every bisection is
the fallback) the run on the square with bound 1 terminates. -/
theorem recursive_split_terminates_witness :
    ∃ fuel res, recursive_split failingPrim fuel squareGeom 1 = some res :=
  recursive_split_terminates failingPrim 1 (by decide) squareGeom (fun _ => 0)
    (fun g _ h2 => by simp [split_geometry, failingPrim] at h2)

end SplitGeojsonApp
